import Mathlib

/-!
Shallow embedding of the items CRUD core of the turbo-nestjs-remix-starter
repository: the in-memory items store (`apps/api/src/v1/items/items.service.ts`),
the pagination/sorting logic and controller metadata
(`apps/api/src/v1/items/items.controller.ts`,
`apps/api/src/common/dto/pagination.dto.ts`), and the error translator
(`HttpExceptionFilter`).  Timestamps (`Date`) are modelled as epoch
milliseconds (`Nat`); `Date#toISOString` is an injective formatting that the
claims never inspect, so DTO timestamps are kept as the underlying
milliseconds.
-/

namespace ItemsApi

/-- The `order` query parameter: `'asc' | 'desc'` (`pagination.dto.ts`). -/
inductive SortOrder
  | asc
  | desc
deriving DecidableEq, Repr

/-- The `Item` interface of `items.service.ts`: `id`, `name`, `description`
are strings; `createdAt`/`updatedAt` are `Date`s, modelled as epoch millis. -/
structure Item where
  id : String
  name : String
  description : String
  createdAt : Nat
  updatedAt : Nat
deriving DecidableEq, Repr

/-- The value of `item[field]` for a dynamic field name (`a[query.sort as
keyof Item]`): a string field, a `Date` field, or `undefined` when the name
is not a key of `Item`. -/
inductive FieldVal
  | str (s : String)
  | date (n : Nat)
  | undefinedVal
deriving DecidableEq, Repr

/-- Dynamic field access `item[field]` on an `Item`. -/
def fieldVal (field : String) (it : Item) : FieldVal :=
  if field = "id" then .str it.id
  else if field = "name" then .str it.name
  else if field = "description" then .str it.description
  else if field = "createdAt" then .date it.createdAt
  else if field = "updatedAt" then .date it.updatedAt
  else .undefinedVal

/-- Lexicographic `<` on character lists: the order JavaScript's relational
`<` uses on strings (code-unit by code-unit; all strings in this repository
are ASCII, where code units coincide with characters). -/
def charListLt : List Char → List Char → Bool
  | [], [] => false
  | [], _ :: _ => true
  | _ :: _, [] => false
  | a :: as, b :: bs =>
    if a < b then true
    else if b < a then false
    else charListLt as bs

/-- JavaScript `<` on two field values as they occur in the comparator of
`ItemsService.findAll`: strings compare lexicographically, `Date`s compare by
their numeric value, and any comparison involving `undefined` (or two values
of different runtime types, which coerce through `NaN`) is `false`. -/
def jsLt : FieldVal → FieldVal → Bool
  | .str a, .str b => charListLt a.data b.data
  | .date a, .date b => decide (a < b)
  | _, _ => false

/-- The sort comparator of `ItemsService.findAll`:
`if (aValue < bValue) return order === 'asc' ? -1 : 1;
 if (aValue > bValue) return order === 'asc' ? 1 : -1;  return 0;`. -/
def itemCmp (sortField : String) (order : SortOrder) (a b : Item) : Int :=
  let aValue := fieldVal sortField a
  let bValue := fieldVal sortField b
  if jsLt aValue bValue then (if order = .asc then -1 else 1)
  else if jsLt bValue aValue then (if order = .asc then 1 else -1)
  else 0

/-- `a` may be placed before `b` by a stable sort with comparator
`itemCmp`: the comparator is non-positive. -/
def itemLe (sortField : String) (order : SortOrder) (a b : Item) : Prop :=
  itemCmp sortField order a b ≤ 0

instance (sortField : String) (order : SortOrder) :
    DecidableRel (itemLe sortField order) := fun a b => by
  unfold itemLe; infer_instance

/-- `filteredItems.sort(comparator)`: ECMAScript `Array.prototype.sort` is
stable, and for a consistent comparator (the comparator above is consistent
on every list of items, since all items yield the same `FieldVal`
constructor for a fixed field) the stable-sorted result is the unique one
produced by stable insertion sort with `le a b := itemCmp a b ≤ 0`. -/
def sortItems (sortField : String) (order : SortOrder) (l : List Item) :
    List Item :=
  List.insertionSort (itemLe sortField order) l

/-- `PaginationQueryDto` after validation and default substitution:
`page` (≥ 1 when valid), `limit` (in [1,100] when valid), `sort`, `order`. -/
structure PaginationQuery where
  page : Nat
  limit : Nat
  sort : String
  order : SortOrder
deriving DecidableEq, Repr

/-- `ItemDto.attributes` (`item.dto.ts`), timestamps as epoch millis. -/
structure ItemAttributes where
  name : String
  description : String
  createdAt : Nat
  updatedAt : Nat
deriving DecidableEq, Repr

/-- `ItemDto`: `{ id, type, attributes }`. -/
structure ItemDto where
  id : String
  type : String
  attributes : ItemAttributes
deriving DecidableEq, Repr

/-- `ItemsService.toDto`. -/
def toDto (it : Item) : ItemDto :=
  { id := it.id
    type := "item"
    attributes :=
      { name := it.name
        description := it.description
        createdAt := it.createdAt
        updatedAt := it.updatedAt } }

/-- `ItemsService.findAll`: copy, sort when `query.sort` is truthy
(a non-empty string), then slice
`[(page-1)*limit, (page-1)*limit + limit)`; `query.page || 1` and
`query.limit || 20` replace the falsy value `0` by the default.
Returns the page of DTOs and the total count. -/
def findAll (q : PaginationQuery) (items : List Item) : List ItemDto × Nat :=
  let filteredItems := if q.sort = "" then items else sortItems q.sort q.order items
  let total := filteredItems.length
  let page := if q.page = 0 then 1 else q.page
  let limit := if q.limit = 0 then 20 else q.limit
  let startIndex := (page - 1) * limit
  (((filteredItems.drop startIndex).take limit).map toDto, total)

/-- The mutable state of `ItemsService`: the `items` array and the `nextId`
counter. -/
structure StoreState where
  items : List Item
  nextId : Nat
deriving DecidableEq, Repr

/-- The first seeded item (`'2024-01-15T10:30:00Z'` = 1705314600000 ms). -/
def seedItem1 : Item :=
  { id := "1"
    name := "Sample Item 1"
    description := "This is a sample item for demonstration"
    createdAt := 1705314600000
    updatedAt := 1705314600000 }

/-- The second seeded item (`'2024-01-16T14:20:00Z'` = 1705414800000 ms). -/
def seedItem2 : Item :=
  { id := "2"
    name := "Sample Item 2"
    description := "Another sample item for testing"
    createdAt := 1705414800000
    updatedAt := 1705414800000 }

/-- The third seeded item (`'2024-01-17T09:15:00Z'` = 1705482900000 ms). -/
def seedItem3 : Item :=
  { id := "3"
    name := "Sample Item 3"
    description := "Third sample item in our collection"
    createdAt := 1705482900000
    updatedAt := 1705482900000 }

/-- The initial state of `ItemsService`: three seeded items, `nextId = 4`. -/
def initialState : StoreState :=
  { items := [seedItem1, seedItem2, seedItem3], nextId := 4 }

/-- `this.items.find((item) => item.id === id)`. -/
def lookupItem (id : String) (st : StoreState) : Option Item :=
  st.items.find? (fun it => it.id == id)

/-- `ItemsService.findOne`: `none` models the thrown `NotFoundException`. -/
def findOne (id : String) (st : StoreState) : Option ItemDto :=
  (lookupItem id st).map toDto

/-- `ItemsService.createSimple(name, description)`: pushes a new item with
id `String(this.nextId++)`; `now` is the current `Date` in millis. -/
def createSimple (name description : String) (now : Nat) (st : StoreState) :
    ItemDto × StoreState :=
  let newItem : Item :=
    { id := Nat.repr st.nextId
      name := name
      description := description
      createdAt := now
      updatedAt := now }
  (toDto newItem, { items := st.items ++ [newItem], nextId := st.nextId + 1 })

/-- `ItemsService.create(createItemData)`: like `createSimple` but the
description is `createItemData.description || ''` (absent or empty becomes
the empty string). -/
def create (name : String) (description : Option String) (now : Nat)
    (st : StoreState) : ItemDto × StoreState :=
  let newItem : Item :=
    { id := Nat.repr st.nextId
      name := name
      description := description.getD ""
      createdAt := now
      updatedAt := now }
  (toDto newItem, { items := st.items ++ [newItem], nextId := st.nextId + 1 })

/-- `findIndex` on `item.id === id` followed by replacing that slot with
`f item`: returns the new item and the new array, or `none` when the index
is `-1`. -/
def updateFirst (id : String) (f : Item → Item) :
    List Item → Option (Item × List Item)
  | [] => none
  | it :: rest =>
    if it.id == id then
      let it' := f it
      some (it', it' :: rest)
    else
      match updateFirst id f rest with
      | none => none
      | some (r, rest') => some (r, it :: rest')

/-- The object-spread merge of `ItemsService.updateSimple`:
`{...item, ...(name !== undefined && { name }),
 ...(description !== undefined && { description }), updatedAt: new Date()}`. -/
def mergeSimple (name description : Option String) (now : Nat) (it : Item) :
    Item :=
  { it with
    name := match name with | some n => n | none => it.name
    description := match description with | some d => d | none => it.description
    updatedAt := now }

/-- The object-spread merge of `ItemsService.update`: the `name` guard is
the truthiness check `updateItemData.name && { name }`, so an absent name
AND an empty-string name both leave `name` unchanged;
`description !== undefined` behaves as in `updateSimple`. -/
def mergeUpdate (name description : Option String) (now : Nat) (it : Item) :
    Item :=
  { it with
    name := match name with
      | some n => if n = "" then it.name else n
      | none => it.name
    description := match description with | some d => d | none => it.description
    updatedAt := now }

/-- `ItemsService.updateSimple(id, name?, description?)`; `none` models the
thrown `NotFoundException`. -/
def updateSimple (id : String) (name description : Option String) (now : Nat)
    (st : StoreState) : Option (ItemDto × StoreState) :=
  (updateFirst id (mergeSimple name description now) st.items).map
    (fun p => (toDto p.1, { items := p.2, nextId := st.nextId }))

/-- `ItemsService.update(id, updateItemData)`; `none` models the thrown
`NotFoundException`. -/
def update (id : String) (name description : Option String) (now : Nat)
    (st : StoreState) : Option (ItemDto × StoreState) :=
  (updateFirst id (mergeUpdate name description now) st.items).map
    (fun p => (toDto p.1, { items := p.2, nextId := st.nextId }))

/-- `findIndex` on `item.id === id` followed by `splice(index, 1)`:
removes the first item with the given id, or `none` when the index is `-1`. -/
def removeFirst (id : String) : List Item → Option (List Item)
  | [] => none
  | it :: rest =>
    if it.id == id then some rest
    else (removeFirst id rest).map (fun rest' => it :: rest')

/-- `ItemsService.remove(id)`; `none` models the thrown
`NotFoundException`. -/
def remove (id : String) (st : StoreState) : Option StoreState :=
  (removeFirst id st.items).map
    (fun items' => { items := items', nextId := st.nextId })

/-- `Math.ceil(a / b)` for natural `a` and positive natural `b`
(`Math.ceil(total / limit)` in `ItemsController.findAll`). -/
def jsCeilDiv (a b : Nat) : Nat := (a + b - 1) / b

/-- The pagination metadata block built by `ItemsController.findAll`. -/
structure PaginationMeta where
  page : Nat
  limit : Nat
  total : Nat
  totalPages : Nat
  hasNext : Bool
  hasPrev : Bool
deriving DecidableEq, Repr

/-- `ItemsController.findAll`: calls the service, then computes
`totalPages = Math.ceil(total / limit)`, `hasNext = page < totalPages`,
`hasPrev = page > 1` with `page = query.page || 1`,
`limit = query.limit || 20`. -/
def controllerFindAll (q : PaginationQuery) (items : List Item) :
    List ItemDto × PaginationMeta :=
  let r := findAll q items
  let total := r.2
  let page := if q.page = 0 then 1 else q.page
  let limit := if q.limit = 0 then 20 else q.limit
  let totalPages := jsCeilDiv total limit
  (r.1,
    { page := page
      limit := limit
      total := total
      totalPages := totalPages
      hasNext := decide (page < totalPages)
      hasPrev := decide (1 < page) })

/-- The `exception.getResponse().message` field seen by
`HttpExceptionFilter.catch`: absent, a string, or an array of strings. -/
inductive ExcMessage
  | none
  | str (s : String)
  | arr (msgs : List String)
deriving DecidableEq, Repr

/-- JavaScript truthiness of `responseObj.message`: `undefined` and the
empty string are falsy; any array (even empty) is truthy. -/
def msgTruthy : ExcMessage → Bool
  | .none => false
  | .str s => decide (s ≠ "")
  | .arr _ => true

/-- One entry of the `details` array built by `HttpExceptionFilter`. -/
structure ErrorDetail where
  field : String
  code : String
  message : String
deriving DecidableEq, Repr

/-- The error envelope built by `HttpExceptionFilter.catch`
(`success`, `error.code`, `error.message`, optional `error.details`). -/
structure ErrorEnvelope where
  success : Bool
  code : String
  message : String
  details : Option (List ErrorDetail)
deriving DecidableEq, Repr

/-- `HttpExceptionFilter.catch` (src/unnamed/part_010): maps an HTTP status
and exception response message to the error envelope.  Status 400 with a
truthy message becomes `VALIDATION_ERROR`; an array message is mapped entry
by entry to details with `field: 'unknown'`; statuses 401/403/404/409/429
map to their codes; anything else stays `INTERNAL_ERROR`.  A truthy string
message overrides the default message at the end. -/
def translateException (status : Nat) (msg : ExcMessage) : ErrorEnvelope :=
  let base : String × String × Option (List ErrorDetail) :=
    if status = 400 ∧ msgTruthy msg then
      ("VALIDATION_ERROR", "The request contains invalid data",
        match msg with
        | .arr msgs =>
          some (msgs.map (fun m =>
            { field := "unknown", code := "VALIDATION_FAILED", message := m }))
        | _ => Option.none)
    else if status = 401 then
      ("AUTHENTICATION_ERROR", "Authentication failed", Option.none)
    else if status = 403 then
      ("AUTHORIZATION_ERROR", "Access denied", Option.none)
    else if status = 404 then
      ("RESOURCE_NOT_FOUND", "Requested resource not found", Option.none)
    else if status = 409 then
      ("RESOURCE_CONFLICT", "Resource already exists", Option.none)
    else if status = 429 then
      ("RATE_LIMIT_EXCEEDED", "Too many requests", Option.none)
    else
      ("INTERNAL_ERROR", "An unexpected error occurred", Option.none)
  let finalMessage :=
    match msg with
    | .str s => if s = "" then base.2.1 else s
    | _ => base.2.1
  { success := false
    code := base.1
    message := finalMessage
    details := base.2.2 }

/-- Modelled from the spec: the global `ValidationPipe` (framework code, not
under src) validates the request body against `CreateItemAttributesDto`
before the controller runs and collects all constraint-violation messages;
per the DTO decorators (src/unnamed/part_007) an empty `name` violates
`MinLength(1)` and `IsNotEmpty`, `description` is optional and
unconstrained, so the message list is non-empty exactly when the name is
empty. -/
def validateCreateItem (name : String) (_description : Option String) :
    List String :=
  if name = "" then
    ["name must be longer than or equal to 1 characters",
     "name should not be empty"]
  else []

/-- `POST /v1/items` end to end: validation first (fail fast, no mutation),
then `ItemsController.create`, which calls
`createSimple(name, description || '')`.  A validation failure becomes a
`BadRequestException` whose response message is the array of constraint
messages, translated by `HttpExceptionFilter`. -/
def postItems (name : String) (description : Option String) (now : Nat)
    (st : StoreState) : (ErrorEnvelope ⊕ ItemDto) × StoreState :=
  match validateCreateItem name description with
  | [] =>
    let r := createSimple name (description.getD "") now st
    (Sum.inr r.1, r.2)
  | msgs => (Sum.inl (translateException 400 (.arr msgs)), st)

/-- `DELETE /v1/items/:id` end to end: `ItemsService.remove` either deletes
(204, no envelope) or throws `NotFoundException` with message
`Item with id <id> not found`, translated by `HttpExceptionFilter`. -/
def deleteItems (id : String) (st : StoreState) :
    Option ErrorEnvelope × StoreState :=
  match remove id st with
  | some st' => (Option.none, st')
  | Option.none =>
    (some (translateException 404
      (.str ("Item with id " ++ id ++ " not found"))), st)

/-- Does an endpoint result carry a field-level violation for `f`? -/
def envHasFieldDetail (e : ErrorEnvelope ⊕ ItemDto) (f : String) : Bool :=
  match e with
  | Sum.inl env => (env.details.getD []).any (fun d => d.field == f)
  | Sum.inr _ => false

/-- One operation against the store, for whole-lifetime traces. -/
inductive StoreOp
  | createOp (name : String) (description : Option String) (now : Nat)
  | createSimpleOp (name description : String) (now : Nat)
  | updateOp (id : String) (name description : Option String) (now : Nat)
  | updateSimpleOp (id : String) (name description : Option String) (now : Nat)
  | removeOp (id : String)
deriving DecidableEq, Repr

/-- Run one operation, accumulating in the second component the id of every
record ever created in this process lifetime (a ghost log; the seeds are
already in the initial log). -/
def applyOp (p : StoreState × List String) (op : StoreOp) :
    StoreState × List String :=
  match op with
  | .createOp n d now =>
    let r := create n d now p.1
    (r.2, r.1.id :: p.2)
  | .createSimpleOp n d now =>
    let r := createSimple n d now p.1
    (r.2, r.1.id :: p.2)
  | .updateOp id n d now =>
    (match update id n d now p.1 with
     | some r => r.2
     | Option.none => p.1, p.2)
  | .updateSimpleOp id n d now =>
    (match updateSimple id n d now p.1 with
     | some r => r.2
     | Option.none => p.1, p.2)
  | .removeOp id =>
    (match remove id p.1 with
     | some st' => st'
     | Option.none => p.1, p.2)

/-- Run a whole lifetime of operations from the seeded initial state; the
seed ids `"1"`, `"2"`, `"3"` start the created-id log. -/
def runOps (ops : List StoreOp) : StoreState × List String :=
  ops.foldl applyOp (initialState, ["1", "2", "3"])

/-- Most-significant-first decimal digit characters of a natural number,
the fuel-free counterpart of `Nat.toDigitsCore 10`. -/
def natDigits (n : Nat) : List Char :=
  if n / 10 = 0 then [Nat.digitChar (n % 10)]
  else natDigits (n / 10) ++ [Nat.digitChar (n % 10)]
termination_by n
decreasing_by simp_wf; omega

/-- `Nat.toDigitsCore 10` with enough fuel computes `natDigits` onto the
accumulator. -/
theorem toDigitsCore_eq (fuel n : Nat) (acc : List Char) (h : n < fuel) :
    Nat.toDigitsCore 10 fuel n acc = natDigits n ++ acc := by
  induction fuel generalizing n acc with
  | zero => omega
  | succ fuel ih =>
    rw [natDigits]
    by_cases h10 : n / 10 = 0
    · simp [Nat.toDigitsCore, h10]
    · simp only [Nat.toDigitsCore, h10, if_neg, if_false]
      rw [ih (n / 10) (Nat.digitChar (n % 10) :: acc) (by omega)]
      simp

/-- Decimal value of a digit-character list (left fold). -/
def digitsVal (l : List Char) : Nat :=
  l.foldl (fun a c => a * 10 + (c.toNat - 48)) 0

/-- `digitsVal` peels one trailing digit. -/
theorem digitsVal_append_singleton (xs : List Char) (c : Char) :
    digitsVal (xs ++ [c]) = digitsVal xs * 10 + (c.toNat - 48) := by
  simp [digitsVal, List.foldl_append]

/-- `Nat.digitChar` is inverted by `toNat - 48` on decimal digits. -/
theorem digitChar_inv : ∀ d : Nat, d < 10 → (Nat.digitChar d).toNat - 48 = d := by
  decide

/-- `digitsVal` inverts `natDigits`. -/
theorem digitsVal_natDigits (n : Nat) : digitsVal (natDigits n) = n := by
  induction n using Nat.strong_induction_on with
  | _ n ih =>
    rw [natDigits]
    by_cases h10 : n / 10 = 0
    · have hn : n < 10 := by omega
      have hmod : n % 10 = n := Nat.mod_eq_of_lt hn
      simp only [h10, if_pos, hmod]
      show 0 * 10 + ((Nat.digitChar n).toNat - 48) = n
      rw [digitChar_inv n hn]
      omega
    · simp only [h10, if_neg, if_false]
      rw [digitsVal_append_singleton, ih (n / 10) (by omega),
        digitChar_inv (n % 10) (by omega)]
      omega

/-- `Nat.repr` through `natDigits`. -/
theorem repr_eq_natDigits (n : Nat) : Nat.repr n = (natDigits n).asString := by
  unfold Nat.repr Nat.toDigits
  rw [toDigitsCore_eq (n + 1) n [] (Nat.lt_succ_self n)]
  simp

/-- Decimal string representations of distinct naturals differ. -/
theorem repr_injective : Function.Injective Nat.repr := by
  intro m n h
  have hd : natDigits m = natDigits n := by
    have h2 := congrArg String.data h
    rw [repr_eq_natDigits, repr_eq_natDigits] at h2
    simpa [List.asString] using h2
  have h3 := congrArg digitsVal hd
  rwa [digitsVal_natDigits, digitsVal_natDigits] at h3

/-- Sorting does not change the number of items. -/
theorem length_sortItems (f : String) (o : SortOrder) (l : List Item) :
    (sortItems f o l).length = l.length :=
  List.length_insertionSort _ l

/-- Lexicographic comparison of a character list with itself is false. -/
theorem charListLt_irrefl : ∀ l : List Char, charListLt l l = false
  | [] => rfl
  | a :: as => by simp [charListLt, charListLt_irrefl as]

/-- JavaScript `<` on equal field values is false. -/
theorem jsLt_irrefl (v : FieldVal) : jsLt v v = false := by
  cases v with
  | str s => simp [jsLt, charListLt_irrefl]
  | date n => simp [jsLt]
  | undefinedVal => rfl

/-- The comparator returns 0 on items whose sort-field values are equal. -/
theorem itemCmp_eq_zero_of_fieldVal_eq (f : String) (o : SortOrder)
    {a b : Item} (h : fieldVal f a = fieldVal f b) : itemCmp f o a b = 0 := by
  simp [itemCmp, h, jsLt_irrefl]

/-- An unknown sort field reads as `undefined` on every item. -/
theorem fieldVal_unknown (f : String)
    (hf : f ∉ ["id", "name", "description", "createdAt", "updatedAt"])
    (it : Item) : fieldVal f it = .undefinedVal := by
  have h1 : f ≠ "id" := fun h => hf (by simp [h])
  have h2 : f ≠ "name" := fun h => hf (by simp [h])
  have h3 : f ≠ "description" := fun h => hf (by simp [h])
  have h4 : f ≠ "createdAt" := fun h => hf (by simp [h])
  have h5 : f ≠ "updatedAt" := fun h => hf (by simp [h])
  simp [fieldVal, h1, h2, h3, h4, h5]

/-- A total relation is pairwise on every list. -/
theorem pairwise_of_all {r : Item → Item → Prop} (h : ∀ a b, r a b) :
    ∀ l : List Item, l.Pairwise r
  | [] => .nil
  | a :: l => .cons (fun b _ => h a b) (pairwise_of_all h l)

/-- Sorting by an unknown field is the identity: the comparator returns 0
on every pair, and a stable sort then preserves the input order. -/
theorem sortItems_of_unknown_field (f : String) (o : SortOrder)
    (hf : f ∉ ["id", "name", "description", "createdAt", "updatedAt"])
    (l : List Item) : sortItems f o l = l := by
  apply List.Sorted.insertionSort_eq
  apply pairwise_of_all
  intro a b
  show itemCmp f o a b ≤ 0
  have := itemCmp_eq_zero_of_fieldVal_eq f o
    (a := a) (b := b) (by rw [fieldVal_unknown f hf, fieldVal_unknown f hf])
  omega

/-- `jsCeilDiv T l` is large enough: `T ≤ ⌈T / l⌉ * l`. -/
theorem le_jsCeilDiv_mul (T l : Nat) (hl : 1 ≤ l) : T ≤ jsCeilDiv T l * l := by
  by_contra hcon
  push_neg at hcon
  have h2 : (jsCeilDiv T l + 1) * l ≤ T + l - 1 := by
    rw [Nat.succ_mul]; omega
  have h3 : jsCeilDiv T l + 1 ≤ (T + l - 1) / l :=
    (Nat.le_div_iff_mul_le (by omega)).2 h2
  simp only [jsCeilDiv] at h3 hcon
  omega

/-- `jsCeilDiv T l` is tight: `⌈T / l⌉ * l < T + l`. -/
theorem jsCeilDiv_mul_lt (T l : Nat) (hl : 1 ≤ l) : jsCeilDiv T l * l < T + l := by
  have h := Nat.div_mul_le_self (T + l - 1) l
  simp only [jsCeilDiv]
  omega

/-- `jsCeilDiv 0 l = 0` for positive `l`. -/
theorem jsCeilDiv_zero (l : Nat) (hl : 1 ≤ l) : jsCeilDiv 0 l = 0 := by
  simp only [jsCeilDiv, Nat.zero_add]
  exact Nat.div_eq_of_lt (by omega)

/-- `findIndex`-then-set on the first item matching `id`, given the item
`find` locates. -/
theorem updateFirst_find? (id : String) (f : Item → Item) :
    ∀ (l : List Item) (pre : Item),
      l.find? (fun it => it.id == id) = some pre →
      ∃ l', updateFirst id f l = some (f pre, l')
  | [], pre => by intro h; simp at h
  | it :: rest, pre => by
    intro h
    by_cases hid : (it.id == id) = true
    · simp only [List.find?, hid, Option.some.injEq] at h
      subst h
      exact ⟨f it :: rest, by simp [updateFirst, hid]⟩
    · simp only [List.find?, hid] at h
      obtain ⟨l', hl'⟩ := updateFirst_find? id f rest pre h
      refine ⟨it :: l', ?_⟩
      simp [updateFirst, hid, hl']

/-- `findIndex` returns `-1` when no item matches. -/
theorem removeFirst_eq_none (id : String) :
    ∀ l : List Item, (∀ it ∈ l, it.id ≠ id) → removeFirst id l = Option.none
  | [] => fun _ => rfl
  | it :: rest => fun h => by
    have hid : (it.id == id) = false := by
      simpa using h it (List.mem_cons_self it rest)
    simp only [removeFirst, hid, if_neg, if_false,
      removeFirst_eq_none id rest (fun x hx => h x (List.mem_cons_of_mem it hx))]
    rfl

/-- C1: for every collection and every valid `page ≥ 1`, `limit ∈ [1,100]`,
the list operation returns a slice of length
`min limit (total - (page-1)*limit)` (truncated subtraction renders the
`max 0` of the claim), obtained by slicing the sorted collection from
`(page-1)*limit`; a page whose start index is at or past the total yields
an empty list, not an error. -/
theorem claim1 (q : PaginationQuery) (items : List Item)
    (hp : 1 ≤ q.page) (hl1 : 1 ≤ q.limit) (hl2 : q.limit ≤ 100) :
    (findAll q items).1.length
      = min q.limit (items.length - (q.page - 1) * q.limit)
    ∧ (items.length ≤ (q.page - 1) * q.limit → (findAll q items).1 = []) := by
  have hp0 : ¬ q.page = 0 := by omega
  have hl0 : ¬ q.limit = 0 := by omega
  have hlen : (if q.sort = "" then items else sortItems q.sort q.order items).length
      = items.length := by
    split
    · rfl
    · exact length_sortItems _ _ _
  have hmain : (findAll q items).1.length
      = min q.limit (items.length - (q.page - 1) * q.limit) := by
    simp [findAll, hp0, hl0, hlen]
  refine ⟨hmain, fun h => ?_⟩
  rw [← List.length_eq_zero, hmain, Nat.sub_eq_zero_of_le h, Nat.min_zero]

/-- Witness for C1 at `page = 2`, `limit = 2` over the three seeded items:
the second page holds `min 2 (3 - 2) = 1` item. -/
theorem claim1_witness :
    ((1:Nat) ≤ 2 ∧ (1:Nat) ≤ 2 ∧ (2:Nat) ≤ 100)
    ∧ ((findAll { page := 2, limit := 2, sort := "id", order := SortOrder.asc }
          initialState.items).1.length
        = min 2 (initialState.items.length - (2 - 1) * 2)
      ∧ (initialState.items.length ≤ (2 - 1) * 2 →
          (findAll { page := 2, limit := 2, sort := "id", order := SortOrder.asc }
            initialState.items).1 = [])) :=
  ⟨⟨by decide, by decide, by decide⟩,
    claim1 { page := 2, limit := 2, sort := "id", order := SortOrder.asc }
      initialState.items (by decide) (by decide) (by decide)⟩

/-- C2: the controller's pagination metadata satisfies
`hasNext ↔ page < totalPages`, `hasPrev ↔ page > 1`, and
`totalPages = ceil(total / limit)` — the latter stated by its defining
bounds `total ≤ totalPages * limit < total + limit` (with the effective
limit positive, these pin `totalPages` to the ceiling); in particular
page 1 of a one-page result has `hasNext = false` and `hasPrev = false`. -/
theorem claim2 (q : PaginationQuery) (items : List Item) :
    ((controllerFindAll q items).2.hasNext = true
      ↔ (controllerFindAll q items).2.page < (controllerFindAll q items).2.totalPages)
    ∧ ((controllerFindAll q items).2.hasPrev = true
      ↔ 1 < (controllerFindAll q items).2.page)
    ∧ (controllerFindAll q items).2.total
      ≤ (controllerFindAll q items).2.totalPages * (controllerFindAll q items).2.limit
    ∧ (controllerFindAll q items).2.totalPages * (controllerFindAll q items).2.limit
      < (controllerFindAll q items).2.total + (controllerFindAll q items).2.limit
    ∧ ((controllerFindAll q items).2.page = 1
        ∧ (controllerFindAll q items).2.totalPages = 1 →
        (controllerFindAll q items).2.hasNext = false
        ∧ (controllerFindAll q items).2.hasPrev = false) := by
  have hl : 1 ≤ (if q.limit = 0 then 20 else q.limit) := by split <;> omega
  simp only [controllerFindAll]
  refine ⟨by simp, by simp,
    le_jsCeilDiv_mul (findAll q items).2 _ hl,
    jsCeilDiv_mul_lt (findAll q items).2 _ hl, ?_⟩
  rintro ⟨h1, h2⟩
  rw [h1, h2]
  exact ⟨by simp, by simp⟩

/-- C3 as stated is false: with zero records the controller still sets
`hasPrev = page > 1`, so a request for page 2 of an empty collection gets
`hasPrev = true`, contradicting the claimed `hasPrev = false`. -/
theorem claim3_counterexample :
    (controllerFindAll { page := 2, limit := 20, sort := "id", order := SortOrder.asc }
      []).2.hasPrev = true := by decide

/-- C3 amended: with zero records the metadata has `totalPages = 0` and
`hasNext = false` for every valid page and limit, but `hasPrev` is
`page > 1` (so it is false only on page 1), since the controller computes
`hasPrev` from the page number alone. -/
theorem claim3_amended (q : PaginationQuery) :
    (controllerFindAll q []).2.totalPages = 0
    ∧ (controllerFindAll q []).2.hasNext = false
    ∧ ((controllerFindAll q []).2.hasPrev = true
        ↔ 1 < (controllerFindAll q []).2.page) := by
  have hl : 1 ≤ (if q.limit = 0 then 20 else q.limit) := by split <;> omega
  have hnil : (if q.sort = "" then ([] : List Item)
      else sortItems q.sort q.order []) = [] := by
    split <;> rfl
  have htot : (findAll q []).2 = 0 := by
    simp [findAll, hnil]
  simp only [controllerFindAll, htot]
  refine ⟨jsCeilDiv_zero _ hl, ?_, by simp⟩
  rw [jsCeilDiv_zero _ hl]
  simp

/-- C4 as stated is false: with an unknown sort field the comparator reads
`undefined` on both sides and returns 0 on every pair, so the stable sort
leaves the collection in insertion order — which differs from sorting by
the default field `id`, because ids compare as strings (`"10" < "9"`).
Concretely, on items with ids `"9"`, `"10"` (in that insertion order) the
unknown-field result keeps `"9"` first while sorting by `id` puts `"10"`
first. -/
theorem claim4_counterexample :
    findAll { page := 1, limit := 20, sort := "priority", order := SortOrder.asc }
        [⟨"9", "A", "", 0, 0⟩, ⟨"10", "B", "", 0, 0⟩]
      ≠ findAll { page := 1, limit := 20, sort := "id", order := SortOrder.asc }
        [⟨"9", "A", "", 0, 0⟩, ⟨"10", "B", "", 0, 0⟩] := by decide

/-- C4 amended: a sort parameter that is not a field of the record type
does not fall back to sorting by `id`; it behaves exactly like requesting
no sorting at all, leaving the collection in insertion order. -/
theorem claim4_amended (q : PaginationQuery) (items : List Item)
    (hf : q.sort ∉ ["id", "name", "description", "createdAt", "updatedAt"]) :
    findAll q items = findAll { q with sort := "" } items := by
  by_cases hs : q.sort = ""
  · simp [findAll, hs]
  · simp [findAll, hs, sortItems_of_unknown_field q.sort q.order hf items]

/-- Witness for C4's amended statement at the field name `"priority"`. -/
theorem claim4_witness :
    ("priority" ∉ ["id", "name", "description", "createdAt", "updatedAt"])
    ∧ findAll { page := 1, limit := 20, sort := "priority", order := SortOrder.asc }
        [seedItem1, seedItem2]
      = findAll { page := 1, limit := 20, sort := "", order := SortOrder.asc }
        [seedItem1, seedItem2] :=
  ⟨by decide,
    claim4_amended { page := 1, limit := 20, sort := "priority", order := SortOrder.asc }
      [seedItem1, seedItem2] (by decide)⟩

/-- C5: the sort used by the list operation is stable — two records with
equal values in the sort field keep their relative input order (stated as:
any such ordered pair that is a sublist of the input stays a sublist of
the output). -/
theorem claim5 (f : String) (o : SortOrder) (l : List Item) (a b : Item)
    (hsub : List.Sublist [a, b] l) (heq : fieldVal f a = fieldVal f b) :
    List.Sublist [a, b] (sortItems f o l) := by
  have hle : itemLe f o a b := by
    show itemCmp f o a b ≤ 0
    rw [itemCmp_eq_zero_of_fieldVal_eq f o heq]
  exact List.pair_sublist_insertionSort hle hsub

/-- Witness for C5: two items with the same name keep their order when
sorting by `name`. -/
theorem claim5_witness :
    (List.Sublist [⟨"4", "Same", "x", 0, 0⟩, ⟨"5", "Same", "y", 1, 1⟩]
        [(⟨"4", "Same", "x", 0, 0⟩ : Item), ⟨"5", "Same", "y", 1, 1⟩]
      ∧ fieldVal "name" ⟨"4", "Same", "x", 0, 0⟩
        = fieldVal "name" ⟨"5", "Same", "y", 1, 1⟩)
    ∧ List.Sublist [⟨"4", "Same", "x", 0, 0⟩, ⟨"5", "Same", "y", 1, 1⟩]
        (sortItems "name" SortOrder.asc
          [⟨"4", "Same", "x", 0, 0⟩, ⟨"5", "Same", "y", 1, 1⟩]) :=
  ⟨⟨List.Sublist.refl _, by decide⟩,
    claim5 "name" SortOrder.asc _ _ _ (List.Sublist.refl _) (by decide)⟩

/-- C6: for every id present in the store, `updateSimple` returns the
merged record: fields absent from the input keep exactly their pre-update
values, `updatedAt` is set to the current time, and an explicitly empty
string for `description` is stored as the new value rather than treated as
absent. -/
theorem claim6 (id : String) (st : StoreState) (pre : Item)
    (name description : Option String) (now : Nat)
    (h : lookupItem id st = some pre) :
    ∃ res : ItemDto × StoreState,
      updateSimple id name description now st = some res
      ∧ res.1.id = pre.id
      ∧ res.1.attributes.name = (match name with | some n => n | _ => pre.name)
      ∧ res.1.attributes.description
        = (match description with | some d => d | _ => pre.description)
      ∧ res.1.attributes.createdAt = pre.createdAt
      ∧ res.1.attributes.updatedAt = now
      ∧ (description = some "" → res.1.attributes.description = "") := by
  obtain ⟨l', hl'⟩ :=
    updateFirst_find? id (mergeSimple name description now) st.items pre h
  refine ⟨(toDto (mergeSimple name description now pre),
    { items := l', nextId := st.nextId }), ?_, rfl, ?_, ?_, rfl, rfl, ?_⟩
  · unfold updateSimple
    rw [hl']
    rfl
  · cases name <;> rfl
  · cases description <;> rfl
  · intro hd
    subst hd
    rfl

/-- Witness for C6: patching item `"1"` with only `description = ""`
keeps the name and stores the empty description. -/
theorem claim6_witness :
    lookupItem "1" initialState = some seedItem1
    ∧ ∃ res : ItemDto × StoreState,
        updateSimple "1" Option.none (some "") 123 initialState = some res
        ∧ res.1.id = seedItem1.id
        ∧ res.1.attributes.name = seedItem1.name
        ∧ res.1.attributes.description = ""
        ∧ res.1.attributes.createdAt = seedItem1.createdAt
        ∧ res.1.attributes.updatedAt = 123
        ∧ ((some "" : Option String) = some "" →
            res.1.attributes.description = "") :=
  ⟨by decide, claim6 "1" initialState seedItem1 Option.none (some "") 123 (by decide)⟩

/-- C7 as stated is false in one conjunct: creating with an empty name is
rejected with a `VALIDATION_ERROR` envelope and the store is untouched,
but the field-level violations carry `field = "unknown"` (hardcoded in
`HttpExceptionFilter`), never `field = "name"`. -/
theorem claim7_counterexample :
    envHasFieldDetail (postItems "" Option.none 0 initialState).1 "name" = false := by
  decide

/-- C7 amended: for every create request with an empty name, the response
is an error envelope with `success = false`, code `VALIDATION_ERROR`, and
a non-empty details list whose every entry has `field = "unknown"` (the
messages, not the field names, identify the violated name constraints);
the store is unchanged. -/
theorem claim7_amended (description : Option String) (now : Nat)
    (st : StoreState) :
    ∃ env : ErrorEnvelope,
      (postItems "" description now st).1 = Sum.inl env
      ∧ env.success = false
      ∧ env.code = "VALIDATION_ERROR"
      ∧ env.details.getD [] ≠ []
      ∧ (∀ d ∈ env.details.getD [], d.field = "unknown")
      ∧ (postItems "" description now st).2 = st := by
  exact ⟨translateException 400
    (.arr ["name must be longer than or equal to 1 characters",
           "name should not be empty"]), rfl, rfl, rfl, by decide, by decide, rfl⟩

/-- C8: deleting a non-existent identifier fails with NotFound, translated
to an envelope with `success = false` and code `RESOURCE_NOT_FOUND`,
never a silent success, and the store is unchanged by the failed call. -/
theorem claim8 (id : String) (st : StoreState)
    (h : ∀ it ∈ st.items, it.id ≠ id) :
    ∃ env : ErrorEnvelope,
      (deleteItems id st).1 = some env
      ∧ env.success = false
      ∧ env.code = "RESOURCE_NOT_FOUND"
      ∧ (deleteItems id st).2 = st := by
  have hr : remove id st = Option.none := by
    unfold remove
    rw [removeFirst_eq_none id st.items h]
    rfl
  have hd : deleteItems id st
      = (some (translateException 404
          (.str ("Item with id " ++ id ++ " not found"))), st) := by
    unfold deleteItems
    rw [hr]
  exact ⟨_, by rw [hd], rfl, rfl, by rw [hd]⟩

/-- Witness for C8: deleting id `"99"` from the seeded store. -/
theorem claim8_witness :
    (∀ it ∈ initialState.items, it.id ≠ "99")
    ∧ ∃ env : ErrorEnvelope,
        (deleteItems "99" initialState).1 = some env
        ∧ env.success = false
        ∧ env.code = "RESOURCE_NOT_FOUND"
        ∧ (deleteItems "99" initialState).2 = initialState :=
  ⟨by decide, claim8 "99" initialState (by decide)⟩

/-- Invariant tying the created-id log to the `nextId` counter: the log has
no duplicates and every logged id is the decimal representation of a
natural number below the counter. -/
def createdInv (st : StoreState) (created : List String) : Prop :=
  created.Nodup ∧ ∀ s ∈ created, ∃ k, k < st.nextId ∧ s = Nat.repr k

/-- Appending the id minted from the counter and bumping the counter
preserves the invariant, whatever happens to the items array. -/
theorem createdInv_push (st : StoreState) (created : List String)
    (items' : List Item) (h : createdInv st created) :
    createdInv { items := items', nextId := st.nextId + 1 }
      (Nat.repr st.nextId :: created) := by
  obtain ⟨hnd, hmem⟩ := h
  constructor
  · rw [List.nodup_cons]
    refine ⟨fun hin => ?_, hnd⟩
    obtain ⟨k, hk, he⟩ := hmem _ hin
    have := repr_injective he
    omega
  · intro s hs
    rcases List.mem_cons.mp hs with rfl | hs'
    · exact ⟨st.nextId, Nat.lt_succ_self _, rfl⟩
    · obtain ⟨k, hk, he⟩ := hmem s hs'
      exact ⟨k, Nat.lt_succ_of_lt hk, he⟩

/-- `update` never changes the `nextId` counter. -/
theorem update_nextId (id : String) (name description : Option String)
    (now : Nat) (st : StoreState) (r : ItemDto × StoreState)
    (h : update id name description now st = some r) :
    r.2.nextId = st.nextId := by
  unfold update at h
  cases hu : updateFirst id (mergeUpdate name description now) st.items with
  | none => rw [hu] at h; simp at h
  | some pr => rw [hu] at h; simp at h; rw [← h]

/-- `updateSimple` never changes the `nextId` counter. -/
theorem updateSimple_nextId (id : String) (name description : Option String)
    (now : Nat) (st : StoreState) (r : ItemDto × StoreState)
    (h : updateSimple id name description now st = some r) :
    r.2.nextId = st.nextId := by
  unfold updateSimple at h
  cases hu : updateFirst id (mergeSimple name description now) st.items with
  | none => rw [hu] at h; simp at h
  | some pr => rw [hu] at h; simp at h; rw [← h]

/-- `remove` never changes the `nextId` counter. -/
theorem remove_nextId (id : String) (st st' : StoreState)
    (h : remove id st = some st') : st'.nextId = st.nextId := by
  unfold remove at h
  cases hu : removeFirst id st.items with
  | none => rw [hu] at h; simp at h
  | some l' => rw [hu] at h; simp at h; rw [← h]

/-- Every store operation preserves the created-id invariant. -/
theorem createdInv_applyOp (p : StoreState × List String) (op : StoreOp)
    (h : createdInv p.1 p.2) :
    createdInv (applyOp p op).1 (applyOp p op).2 := by
  obtain ⟨st, created⟩ := p
  cases op with
  | createOp n d now => exact createdInv_push st created _ h
  | createSimpleOp n d now => exact createdInv_push st created _ h
  | updateOp id n d now =>
    obtain ⟨hnd, hmem⟩ := h
    refine ⟨hnd, fun s hs => ?_⟩
    obtain ⟨k, hk, he⟩ := hmem s hs
    refine ⟨k, ?_, he⟩
    show k < (match update id n d now st with
      | some r => r.2
      | Option.none => st).nextId
    cases hu : update id n d now st with
    | none => exact hk
    | some r => rw [update_nextId id n d now st r hu]; exact hk
  | updateSimpleOp id n d now =>
    obtain ⟨hnd, hmem⟩ := h
    refine ⟨hnd, fun s hs => ?_⟩
    obtain ⟨k, hk, he⟩ := hmem s hs
    refine ⟨k, ?_, he⟩
    show k < (match updateSimple id n d now st with
      | some r => r.2
      | Option.none => st).nextId
    cases hu : updateSimple id n d now st with
    | none => exact hk
    | some r => rw [updateSimple_nextId id n d now st r hu]; exact hk
  | removeOp id =>
    obtain ⟨hnd, hmem⟩ := h
    refine ⟨hnd, fun s hs => ?_⟩
    obtain ⟨k, hk, he⟩ := hmem s hs
    refine ⟨k, ?_, he⟩
    show k < (match remove id st with
      | some st' => st'
      | Option.none => st).nextId
    cases hu : remove id st with
    | none => exact hk
    | some st' => rw [remove_nextId id st st' hu]; exact hk

/-- The invariant survives any whole trace. -/
theorem createdInv_foldl :
    ∀ (ops : List StoreOp) (p : StoreState × List String),
      createdInv p.1 p.2
      → createdInv (ops.foldl applyOp p).1 (ops.foldl applyOp p).2
  | [], _, hp => hp
  | op :: rest, p, hp =>
    createdInv_foldl rest (applyOp p op) (createdInv_applyOp p op hp)

/-- C9: over any sequence of store operations in one process lifetime,
the ids of all records ever created — the three seeds included, deleted
records included — are pairwise distinct: ids are never reused, because
they are minted from a strictly increasing counter. -/
theorem claim9 (ops : List StoreOp) : (runOps ops).2.Nodup := by
  have hinit : createdInv initialState ["1", "2", "3"] := by
    refine ⟨by decide, fun s hs => ?_⟩
    have : s = "1" ∨ s = "2" ∨ s = "3" := by simpa using hs
    rcases this with rfl | rfl | rfl
    · exact ⟨1, by decide, by decide⟩
    · exact ⟨2, by decide, by decide⟩
    · exact ⟨3, by decide, by decide⟩
  exact (createdInv_foldl ops _ hinit).1

/-- C10 as stated is false: with `name = ""` (an explicitly empty string),
`update` keeps the old name (its guard is the JavaScript truthiness check
`updateItemData.name && {...}`, and `""` is falsy) while `updateSimple`
overwrites the name with `""` (its guard is `name !== undefined`).  With
identical timestamps passed to both, the results still differ, so the
discrepancy is not in `updatedAt`. -/
theorem claim10_counterexample :
    update "1" (some "") Option.none 0 initialState
      ≠ updateSimple "1" (some "") Option.none 0 initialState := by decide

/-- C10 amended: for every id present in the store and every pair of
optional inputs whose `name` is not the explicitly empty string (absent,
or present and non-empty), `update` and `updateSimple` return the same
record and leave the store in the same state (with the same timestamp
supplied to both, the agreement is exact); when `name = some ""` the two
differ as the counterexample shows. -/
theorem claim10_amended (id : String) (st : StoreState) (pre : Item)
    (name description : Option String) (now : Nat)
    (_present : lookupItem id st = some pre)
    (hn : ∀ s, name = some s → s ≠ "") :
    update id name description now st
      = updateSimple id name description now st := by
  have hmerge : mergeUpdate name description now
      = mergeSimple name description now := by
    funext it
    cases name with
    | none => rfl
    | some s => simp [mergeUpdate, mergeSimple, hn s rfl]
  unfold update updateSimple
  rw [hmerge]

/-- Witness for C10's amended statement: updating item `"1"` with a
non-empty name. -/
theorem claim10_witness :
    lookupItem "1" initialState = some seedItem1
    ∧ (∀ s, (some "New" : Option String) = some s → s ≠ "")
    ∧ update "1" (some "New") Option.none 5 initialState
        = updateSimple "1" (some "New") Option.none 5 initialState :=
  ⟨by decide, fun s hsome => by cases hsome; decide,
    claim10_amended "1" initialState seedItem1 (some "New") Option.none 5
      (by decide) (fun s hsome => by cases hsome; decide)⟩

end ItemsApi
